import Mathlib

/-!
Verification of the `lcp-decrypt` repository (package `pkg/lcp`, with the
legacy standalone variant in `main.go`).

The development shallowly embeds the Go code as executable Lean functions:

* Byte slices become `List Nat` (each element a byte value `< 256`).
* Fallible Go functions return `GoResult`, which distinguishes an ordinary
  returned `error` (`GoResult.err`) from a Go runtime panic
  (`GoResult.panic`), since out-of-range slice expressions and index
  expressions in Go abort the program rather than return an error.
* The AES block cipher used through `crypto/aes` / `crypto/cipher` is
  implemented concretely (FIPS-197 inverse cipher, key schedule for
  128/192/256-bit keys), so that every theorem can be evaluated on
  concrete inputs.
* External streams and archives are modelled as pure values: a source zip
  entry is its name and its byte content, the destination archive is the
  list of entries written to it.  Document parsers from the Go standard
  library (`encoding/json`, `encoding/xml`) are not re-implemented; the
  functions that consume their output take the decoded record values
  directly, mirroring the Go struct fields that the code reads.
-/

set_option maxRecDepth 100000

namespace Lcp

/-- Byte strings: lists of byte values (`< 256`). -/
abbrev Bytes := List Nat

/-- Result of a Go computation: a returned value, a returned `error`
(carrying its message), or a runtime panic. -/
inductive GoResult (α : Type) where
  | ok (val : α)
  | err (msg : String)
  | panic (msg : String)
  deriving Repr, DecidableEq

namespace GoResult

def map {α β : Type} (f : α → β) : GoResult α → GoResult β
  | .ok a => .ok (f a)
  | .err e => .err e
  | .panic p => .panic p

/-- `true` iff the result is a returned `error` value. -/
def isErr {α : Type} : GoResult α → Bool
  | .err _ => true
  | _ => false

end GoResult

/-- UTF-8 independent rendering used by the model for Go's byte-based
strings: byte values of an ASCII Lean string.  (All names and identifiers
appearing in the claims are ASCII, where Go's byte-wise string equality
agrees with this rendering.) -/
def strBytes (s : String) : Bytes := s.toList.map Char.toNat

/-- Go's `string(b)` conversion on a byte slice, restricted to byte
values, rendered as a Lean string with one character per byte. -/
def bytesToString (b : Bytes) : String := String.mk (b.map Char.ofNat)

/-! ## AES block cipher (FIPS-197), decryption direction

`crypto/aes.NewCipher` accepts 16, 24 and 32 byte keys (AES-128/192/256);
`decipherAES256CBC` inherits this.  The inverse cipher below is the
standard FIPS-197 `InvCipher`, with the state held as the flat 16-byte
block in input order (index `4*c + r` holds state row `r`, column `c`). -/

def sbox : List Nat := [
  99, 124, 119, 123, 242, 107, 111, 197, 48, 1, 103, 43, 254, 215, 171, 118,
  202, 130, 201, 125, 250, 89, 71, 240, 173, 212, 162, 175, 156, 164, 114, 192,
  183, 253, 147, 38, 54, 63, 247, 204, 52, 165, 229, 241, 113, 216, 49, 21,
  4, 199, 35, 195, 24, 150, 5, 154, 7, 18, 128, 226, 235, 39, 178, 117,
  9, 131, 44, 26, 27, 110, 90, 160, 82, 59, 214, 179, 41, 227, 47, 132,
  83, 209, 0, 237, 32, 252, 177, 91, 106, 203, 190, 57, 74, 76, 88, 207,
  208, 239, 170, 251, 67, 77, 51, 133, 69, 249, 2, 127, 80, 60, 159, 168,
  81, 163, 64, 143, 146, 157, 56, 245, 188, 182, 218, 33, 16, 255, 243, 210,
  205, 12, 19, 236, 95, 151, 68, 23, 196, 167, 126, 61, 100, 93, 25, 115,
  96, 129, 79, 220, 34, 42, 144, 136, 70, 238, 184, 20, 222, 94, 11, 219,
  224, 50, 58, 10, 73, 6, 36, 92, 194, 211, 172, 98, 145, 149, 228, 121,
  231, 200, 55, 109, 141, 213, 78, 169, 108, 86, 244, 234, 101, 122, 174, 8,
  186, 120, 37, 46, 28, 166, 180, 198, 232, 221, 116, 31, 75, 189, 139, 138,
  112, 62, 181, 102, 72, 3, 246, 14, 97, 53, 87, 185, 134, 193, 29, 158,
  225, 248, 152, 17, 105, 217, 142, 148, 155, 30, 135, 233, 206, 85, 40, 223,
  140, 161, 137, 13, 191, 230, 66, 104, 65, 153, 45, 15, 176, 84, 187, 22]

def invSbox : List Nat := [
  82, 9, 106, 213, 48, 54, 165, 56, 191, 64, 163, 158, 129, 243, 215, 251,
  124, 227, 57, 130, 155, 47, 255, 135, 52, 142, 67, 68, 196, 222, 233, 203,
  84, 123, 148, 50, 166, 194, 35, 61, 238, 76, 149, 11, 66, 250, 195, 78,
  8, 46, 161, 102, 40, 217, 36, 178, 118, 91, 162, 73, 109, 139, 209, 37,
  114, 248, 246, 100, 134, 104, 152, 22, 212, 164, 92, 204, 93, 101, 182, 146,
  108, 112, 72, 80, 253, 237, 185, 218, 94, 21, 70, 87, 167, 141, 157, 132,
  144, 216, 171, 0, 140, 188, 211, 10, 247, 228, 88, 5, 184, 179, 69, 6,
  208, 44, 30, 143, 202, 63, 15, 2, 193, 175, 189, 3, 1, 19, 138, 107,
  58, 145, 17, 65, 79, 103, 220, 234, 151, 242, 207, 206, 240, 180, 230, 115,
  150, 172, 116, 34, 231, 173, 53, 133, 226, 249, 55, 232, 28, 117, 223, 110,
  71, 241, 26, 113, 29, 41, 197, 137, 111, 183, 98, 14, 170, 24, 190, 27,
  252, 86, 62, 75, 198, 210, 121, 32, 154, 219, 192, 254, 120, 205, 90, 244,
  31, 221, 168, 51, 136, 7, 199, 49, 177, 18, 16, 89, 39, 128, 236, 95,
  96, 81, 127, 169, 25, 181, 74, 13, 45, 229, 122, 159, 147, 201, 156, 239,
  160, 224, 59, 77, 174, 42, 245, 176, 200, 235, 187, 60, 131, 83, 153, 97,
  23, 43, 4, 126, 186, 119, 214, 38, 225, 105, 20, 99, 85, 33, 12, 125]

/-- Forward S-box lookup. -/
def sboxAt (x : Nat) : Nat := sbox.getD (x % 256) 0

/-- Inverse S-box lookup. -/
def invSboxAt (x : Nat) : Nat := invSbox.getD (x % 256) 0

/-- Multiplication by `x` in GF(2^8) modulo `x^8 + x^4 + x^3 + x + 1`. -/
def xtime (a : Nat) : Nat := if a < 128 then 2 * a else Nat.xor (2 * a - 256) 27

/-- Russian-peasant product accumulator over GF(2^8), 8 bit steps. -/
def gmulAux : Nat → Nat → Nat → Nat → Nat
  | 0, _, _, acc => acc
  | n + 1, a, b, acc =>
      gmulAux n (xtime a) (b / 2) (if b % 2 = 1 then Nat.xor acc a else acc)

/-- Product in GF(2^8). -/
def gmul (a b : Nat) : Nat := gmulAux 8 a b 0

/-- Round constant `Rcon[j]` (first byte), `j ≥ 1`. -/
def rcon : Nat → Nat
  | 0 => 0
  | 1 => 1
  | n + 2 => xtime (rcon (n + 1))

/-- XOR of two words (or blocks), componentwise. -/
def xorWord (a b : List Nat) : List Nat := List.zipWith Nat.xor a b

/-- `SubWord` of the key schedule. -/
def subWord (w : List Nat) : List Nat := w.map sboxAt

/-- `RotWord` of the key schedule. -/
def rotWord : List Nat → List Nat
  | [] => []
  | a :: rest => rest ++ [a]

/-- Split a byte string into 4-byte words (the initial key-schedule words). -/
def toWords : Bytes → List (List Nat)
  | a :: b :: c :: d :: rest => [a, b, c, d] :: toWords rest
  | _ => []

/-- The next key-schedule word `w[i]`, given the previous words. -/
def nextWord (Nk : Nat) (ws : List (List Nat)) : List Nat :=
  let i := ws.length
  let temp := ws.getD (i - 1) []
  let temp :=
    if i % Nk = 0 then xorWord (subWord (rotWord temp)) [rcon (i / Nk), 0, 0, 0]
    else if 6 < Nk ∧ i % Nk = 4 then subWord temp
    else temp
  xorWord (ws.getD (i - Nk) []) temp

/-- Append `count` further key-schedule words. -/
def expandWords (Nk : Nat) : Nat → List (List Nat) → List (List Nat)
  | 0, ws => ws
  | n + 1, ws => expandWords Nk n (ws ++ [nextWord Nk ws])

/-- FIPS-197 key expansion; for a key of `4 * Nk` bytes produces
`4 * (Nr + 1)` words with `Nr = Nk + 6`. -/
def keyExpansion (key : Bytes) : List (List Nat) :=
  let Nk := key.length / 4
  let Nr := Nk + 6
  expandWords Nk (4 * (Nr + 1) - Nk) (toWords key)

/-- State byte at flat index `i` (`0` outside the block). -/
def stateAt (s : Bytes) (i : Nat) : Nat := s.getD i 0

/-- `AddRoundKey` for round `rnd`. -/
def addRoundKey (ws : List (List Nat)) (rnd : Nat) (s : Bytes) : Bytes :=
  (List.range 16).map fun i =>
    Nat.xor (stateAt s i) ((ws.getD (4 * rnd + i / 4) []).getD (i % 4) 0)

/-- `InvShiftRows`: row `r` is rotated right by `r`. -/
def invShiftRows (s : Bytes) : Bytes :=
  (List.range 16).map fun i => stateAt s (4 * ((i / 4 + 4 - i % 4) % 4) + i % 4)

/-- `InvSubBytes`. -/
def invSubBytes (s : Bytes) : Bytes := s.map invSboxAt

/-- `InvMixColumns`. -/
def invMixColumns (s : Bytes) : Bytes :=
  (List.range 16).map fun i =>
    let c := i / 4
    let a := fun r => stateAt s (4 * c + r)
    if i % 4 = 0 then
      Nat.xor (gmul 14 (a 0)) (Nat.xor (gmul 11 (a 1)) (Nat.xor (gmul 13 (a 2)) (gmul 9 (a 3))))
    else if i % 4 = 1 then
      Nat.xor (gmul 9 (a 0)) (Nat.xor (gmul 14 (a 1)) (Nat.xor (gmul 11 (a 2)) (gmul 13 (a 3))))
    else if i % 4 = 2 then
      Nat.xor (gmul 13 (a 0)) (Nat.xor (gmul 9 (a 1)) (Nat.xor (gmul 14 (a 2)) (gmul 11 (a 3))))
    else
      Nat.xor (gmul 11 (a 0)) (Nat.xor (gmul 13 (a 1)) (Nat.xor (gmul 9 (a 2)) (gmul 14 (a 3))))

/-- Middle rounds of the inverse cipher: applies rounds `fuel, …, 1`. -/
def invRounds (ws : List (List Nat)) : Nat → Bytes → Bytes
  | 0, s => s
  | r + 1, s =>
      invRounds ws r (invMixColumns (addRoundKey ws (r + 1) (invSubBytes (invShiftRows s))))

/-- FIPS-197 `InvCipher`: decrypt one 16-byte block. -/
def aesDecryptBlock (key block : Bytes) : Bytes :=
  let Nk := key.length / 4
  let Nr := Nk + 6
  let ws := keyExpansion key
  addRoundKey ws 0 (invSubBytes (invShiftRows (invRounds ws (Nr - 1) (addRoundKey ws Nr block))))

/-! ## CBC decryption (`crypto/cipher.NewCBCDecrypter(...).CryptBlocks`)

For ciphertext blocks `C₁ … Cₙ` and initialization vector `C₀`, block `i`
of the plaintext is `D(Cᵢ) XOR Cᵢ₋₁`.  `CryptBlocks` panics when the
source length is not a multiple of the block size; that check is kept in
the caller model below. -/

/-- CBC chain: decrypt `fuel` blocks of `src`, with `prev` the previous
ciphertext block (initially the IV). -/
def cbcDecryptAux (key : Bytes) : Nat → Bytes → Bytes → Bytes
  | 0, _, _ => []
  | n + 1, prev, src =>
      let c := src.take 16
      xorWord (aesDecryptBlock key c) prev ++ cbcDecryptAux key n c (src.drop 16)

/-- `CryptBlocks` of a CBC decrypter with the given key and IV (source
length assumed a multiple of 16, which the caller checks). -/
def cryptBlocksCBC (key iv src : Bytes) : Bytes :=
  cbcDecryptAux key (src.length / 16) iv src

/-! ## Cipher strategies (`decipherAES256CBC`, `decipherFontObfuscation`)

`decipherAES256CBC` (pkg/lcp, and identically `decipher` in the legacy
`main.go`) embeds, in source order:

1. `aes.NewCipher(key)` — returns `aes.KeySizeError` unless the key is
   16, 24 or 32 bytes long;
2. `iv, cipherData := data[:aes.BlockSize], data[aes.BlockSize:]` — the
   slice expressions panic whenever `len(data) < 16` (so the subsequent
   `len(data) == 0` guard of the source is unreachable for empty input:
   the panic happens first; the guard is kept here all the same);
3. `CryptBlocks` — panics when `len(cipherData)` is not a multiple of 16;
4. `res[len(res)-1]` — panics when `len(res) == 0`, i.e. when the input
   is exactly one block;
5. the PKCS#7 padding-length check and the final truncation. -/

/-- `aes.NewCipher` succeeds exactly on 16/24/32-byte keys. -/
def aesNewCipherOk (key : Bytes) : Bool :=
  key.length = 16 || key.length = 24 || key.length = 32

/-- Shallow embedding of `decipherAES256CBC` (pkg/lcp lines 335–358;
identical to `decipher`, legacy `main.go` lines 250–273). -/
def decipherAES256CBC (data key : Bytes) : GoResult Bytes :=
  if ¬ aesNewCipherOk key then
    .err ("error creating cipher: crypto/aes: invalid key size " ++ toString key.length)
  else if data.length < 16 then
    .panic "slice bounds out of range"
  else
    let iv := data.take 16
    let cipherData := data.drop 16
    if data.length = 0 then
      .ok []
    else if cipherData.length % 16 ≠ 0 then
      .panic "crypto/cipher: input not full blocks"
    else
      let res := cryptBlocksCBC key iv cipherData
      match res.getLast? with
      | none => .panic "index out of range"
      | some paddingLen =>
          if res.length < paddingLen then
            .err ("invalid padding length " ++ toString paddingLen ++
              " (data length is " ++ toString res.length ++ ")")
          else
            .ok (res.take (res.length - paddingLen))

/-- Shallow embedding of `decipherFontObfuscation` (pkg/lcp lines
360–364): the data is returned unchanged. -/
def decipherFontObfuscation (data key : Bytes) : GoResult Bytes :=
  .ok data

/-! ## License and key derivation (`getContentKey`)

The Go code JSON-decodes the license document and base64-decodes the two
wire fields before the logic embedded here runs (`encoding/json` and
`encoding/base64` are standard-library parsers, not re-implemented).  A
`License` value therefore holds the decoded fields exactly as the code
reads them: the `id` string (as its bytes, since Go compares strings
byte-for-byte), and the two decoded binary blobs. -/

structure License where
  /-- Bytes of the `id` JSON field. -/
  id : Bytes
  /-- Base64-decoded `encryption.content_key.encrypted_value`. -/
  encryptedContentKey : Bytes
  /-- Base64-decoded `encryption.user_key.key_check`. -/
  encryptedKeyCheck : Bytes
  deriving Repr, DecidableEq

/-- Shallow embedding of `getContentKey` (pkg/lcp lines 291–333) from the
point where the license fields are decoded: decrypt the key check,
compare it byte-for-byte with the license `id`, and only then decrypt and
return the content key. -/
def getContentKey (license : License) (userKey : Bytes) : GoResult Bytes :=
  match decipherAES256CBC license.encryptedKeyCheck userKey with
  | .panic p => .panic p
  | .err e => .err ("error decrypting key check: " ++ e)
  | .ok keyCheck =>
    if keyCheck ≠ license.id then
      .err ("decrypted key check (" ++ bytesToString keyCheck ++
        ") does not match license ID (" ++ bytesToString license.id ++ ")")
    else
      match decipherAES256CBC license.encryptedContentKey userKey with
      | .panic p => .panic p
      | .err e => .err ("error decrypting content key: " ++ e)
      | .ok contentKey => .ok contentKey

/-! ## Encryption manifest (`listEncryptedFiles`)

`encoding/xml` decodes `META-INF/encryption.xml` into one record per
`EncryptedData` element; the embedding starts from those records.  An
`EncRecord` holds exactly the attributes the Go struct reads: the
`EncryptionMethod.Algorithm` string, the `CipherData.CipherReference.URI`
string, and, for each `EncryptionProperty`, the list of `Method` integer
attributes of its `Compression` children. -/

structure EncRecord where
  algorithm : String
  uri : String
  properties : List (List Int)
  deriving Repr, DecidableEq

structure FileEntry where
  path : String
  isCompressed : Bool
  encryptionAlgorithm : String
  deriving Repr, DecidableEq

def EncryptionAlgorithmAES256CBC : String :=
  "http://www.w3.org/2001/04/xmlenc#aes256-cbc"

def EncryptionAlgorithmFontObfuscation : String :=
  "http://www.idpf.org/2008/embedding"

/-- Hexadecimal digit test, as Go's `ishex` (net/url). -/
def isHexChar (c : Char) : Bool :=
  ('0' ≤ c && c ≤ '9') || ('a' ≤ c && c ≤ 'f') || ('A' ≤ c && c ≤ 'F')

/-- Value of a hexadecimal digit. -/
def hexDigitVal (c : Char) : Nat :=
  if '0' ≤ c && c ≤ '9' then c.toNat - '0'.toNat
  else if 'a' ≤ c && c ≤ 'f' then c.toNat - 'a'.toNat + 10
  else if 'A' ≤ c && c ≤ 'F' then c.toNat - 'A'.toNat + 10
  else 0

/-- Rendering of `strconv.Quote` / the `%q` verb for the printable ASCII
strings that appear in this development: the string in double quotes. -/
def strconvQuote (s : String) : String := "\"" ++ s ++ "\""

/-- `net/url.PathUnescape`: percent-decodes the string; a `%` not
followed by two hexadecimal digits is an `url.EscapeError` quoting the
(up to) three offending characters.  (`+` is left unchanged in path
mode.) -/
def pathUnescapeAux : List Char → GoResult (List Char)
  | [] => .ok []
  | c :: rest =>
    if c = '%' then
      match rest with
      | a :: b :: rest2 =>
        if isHexChar a && isHexChar b then
          (pathUnescapeAux rest2).map
            (Char.ofNat (16 * hexDigitVal a + hexDigitVal b) :: ·)
        else
          .err ("invalid URL escape " ++ strconvQuote (String.mk ['%', a, b]))
      | short =>
        .err ("invalid URL escape " ++ strconvQuote (String.mk ('%' :: short)))
    else
      (pathUnescapeAux rest).map (c :: ·)

def pathUnescape (s : String) : GoResult String :=
  (pathUnescapeAux s.toList).map String.mk

/-- Whether any `EncryptionProperty` has a `Compression` child with
`Method == 8` (the `PropertyLoop` of the source; the early `break` does
not change the decided value). -/
def recordIsCompressed (props : List (List Int)) : Bool :=
  props.any fun p => p.any fun m => m = 8

/-- Shallow embedding of `listEncryptedFiles` (pkg/lcp lines 211–279)
from the XML-decoded records: percent-decode each `URI`, fail fast on an
algorithm identifier that is neither of the two known values, and collect
the `FileEntry` list in record order. -/
def listEncryptedFiles : List EncRecord → GoResult (List FileEntry)
  | [] => .ok []
  | d :: rest =>
    match pathUnescape d.uri with
    | .panic p => .panic p
    | .err e => .err ("error decoding entry path " ++ strconvQuote d.uri ++ ": " ++ e)
    | .ok path =>
      if d.algorithm = EncryptionAlgorithmAES256CBC ∨
          d.algorithm = EncryptionAlgorithmFontObfuscation then
        (listEncryptedFiles rest).map
          (FileEntry.mk path (recordIsCompressed d.properties) d.algorithm :: ·)
      else
        .err ("unsupported encryption algorithm for file " ++ path ++ ": " ++ d.algorithm)

/-- Shallow embedding of `groupFileEntriesByPath` (pkg/lcp lines
281–289) as the lookup function of the built map: later entries
overwrite earlier ones with the same path (last wins). -/
def groupFileEntriesByPath (entries : List FileEntry) : String → Option FileEntry :=
  entries.foldl (fun m s k => if k = s.path then some s else m k) fun _ => none

/-! ## Hex decoding of the user key (`encoding/hex.DecodeString`) -/

/-- `encoding/hex.DecodeString`: decodes digit pairs in order, failing at
the first non-hexadecimal byte; a trailing odd digit gives the
odd-length error (or the invalid-byte error when it is itself not a
hexadecimal digit).  Error messages are those of `encoding/hex`, with
the offending byte rendered as its character. -/
def hexDecodeChars : List Char → GoResult Bytes
  | [] => .ok []
  | [c] =>
    if isHexChar c then .err "encoding/hex: odd length hex string"
    else .err ("encoding/hex: invalid byte: " ++ String.mk [c])
  | a :: b :: rest =>
    if ¬ isHexChar a then .err ("encoding/hex: invalid byte: " ++ String.mk [a])
    else if ¬ isHexChar b then .err ("encoding/hex: invalid byte: " ++ String.mk [b])
    else (hexDecodeChars rest).map ((16 * hexDigitVal a + hexDigitVal b) :: ·)

def hexDecodeString (s : String) : GoResult Bytes :=
  hexDecodeChars s.toList

/-! ## File decryption for one archive entry (`decryptFile`)

`io.ReadAll` of the source entry is modelled by handing the function the
entry's bytes.  The optional raw-DEFLATE inflation performed through
`compress/flate` is an external decompressor, passed in as a function
`flateDecode`; a decompression failure surfaces during `io.Copy` and is
wrapped as a write error, exactly as in the source. -/

/-- Shallow embedding of `decryptFile` (pkg/lcp lines 366–400). -/
def decryptFile (contentKey : Bytes) (encryptionAlgorithm : String)
    (isCompressed : Bool) (flateDecode : Bytes → GoResult Bytes)
    (encryptedData : Bytes) : GoResult Bytes :=
  let decipherFunc : Option (Bytes → Bytes → GoResult Bytes) :=
    if encryptionAlgorithm = EncryptionAlgorithmAES256CBC then
      some decipherAES256CBC
    else if encryptionAlgorithm = EncryptionAlgorithmFontObfuscation then
      some decipherFontObfuscation
    else none
  match decipherFunc with
  | none => .err ("invalid encryption algorithm: " ++ encryptionAlgorithm)
  | some f =>
    match f encryptedData contentKey with
    | .panic p => .panic p
    | .err e => .err ("error decrypting data: " ++ e)
    | .ok data =>
      if isCompressed then
        match flateDecode data with
        | .panic p => .panic p
        | .err e => .err ("error writing data: " ++ e)
        | .ok inflated => .ok inflated
      else .ok data

/-! ## The archive transcoder (`Decrypt`)

The source archive is its entry list (in central-directory order, the
order `inFile.File` iterates) plus its comment.  The destination archive
is the list of entries fully written, each with its storage method
(`zip.Store = 0`, `zip.Deflate = 8` — the default used by
`zip.Writer.Create`).

Two oracles model the only destination-side failures relevant to the
claims: the `error` that `outZip.CreateHeader` would return for the
mimetype entry and the `error` that `io.WriteString` of its content
would return.  The source binds the former to `err` and never tests it
(the `if` on the next line declares a fresh `err`), which the embedding
mirrors by not consulting `createHeaderErr` at all.  All other
destination writes, the per-entry `Open`/`Close` of source entries, and
`outZip.Close` are modelled as succeeding; their failure paths only cut
the run short and no claim depends on them. -/

structure ZipEntry where
  name : String
  data : Bytes
  deriving Repr, DecidableEq

structure InputZip where
  entries : List ZipEntry
  comment : String
  deriving Repr, DecidableEq

structure OutEntry where
  name : String
  /-- Storage method: `0` (`zip.Store`) or `8` (`zip.Deflate`). -/
  method : Nat
  data : Bytes
  deriving Repr, DecidableEq

inductive Outcome where
  | success
  | failure (msg : String)
  | panicked (msg : String)
  deriving Repr, DecidableEq

structure DecryptResult where
  /-- Comment set on the destination archive (`""` when not reached). -/
  comment : String
  /-- Entries fully written to the destination, in order. -/
  written : List OutEntry
  outcome : Outcome
  deriving Repr, DecidableEq

def zipStore : Nat := 0
def zipDeflate : Nat := 8

/-- The three source entry names skipped by the transcoding loop. -/
def skippedNames : List String :=
  ["META-INF/encryption.xml", "META-INF/license.lcpl", "mimetype"]

/-- `strings.HasSuffix(name, "/")` for the byte strings modelled here. -/
def isDirName (name : String) : Bool := name.toList.getLast? = some '/'

/-- The `for _, f := range inFile.File` loop of `Decrypt` (pkg/lcp lines
159–194): skip the three consumed names, create a destination entry per
remaining source entry, write no data for directory names, and for file
names route through `decryptFile` exactly when the name is in the
manifest lookup, otherwise copy the bytes verbatim. -/
def processEntries (contentKey : Bytes) (lookup : String → Option FileEntry)
    (flateDecode : Bytes → GoResult Bytes) :
    List ZipEntry → List OutEntry × Outcome
  | [] => ([], .success)
  | f :: rest =>
    if f.name ∈ skippedNames then
      processEntries contentKey lookup flateDecode rest
    else if isDirName f.name then
      let (out, oc) := processEntries contentKey lookup flateDecode rest
      (⟨f.name, zipDeflate, []⟩ :: out, oc)
    else
      match lookup f.name with
      | some fileEntry =>
        match decryptFile contentKey fileEntry.encryptionAlgorithm
            fileEntry.isCompressed flateDecode f.data with
        | .panic p => ([], .panicked p)
        | .err e =>
          ([], .failure ("error copying data for file " ++ f.name ++
            " to output zip file: " ++ e))
        | .ok data =>
          let (out, oc) := processEntries contentKey lookup flateDecode rest
          (⟨f.name, zipDeflate, data⟩ :: out, oc)
      | none =>
        let (out, oc) := processEntries contentKey lookup flateDecode rest
        (⟨f.name, zipDeflate, f.data⟩ :: out, oc)

/-- Content of the generated mimetype entry. -/
def mimetypeContent : Bytes := strBytes "application/epub+zip"

/-- Shallow embedding of `Decrypt` (pkg/lcp lines 94–203), from the point
where the license document is decoded (`license`) and the encryption
manifest is XML-decoded (`records`); `zip.NewReader` and the license
`Open` are successful by construction of the structured inputs.  The
steps run in source order: empty-key check, hex decode, `getContentKey`,
`listEncryptedFiles`, `SetComment` (which fails only for a comment
longer than 65535 bytes), the mimetype entry (whose `CreateHeader` error
is discarded by the source), then the entry loop. -/
def Decrypt (inZip : InputZip) (license : License) (records : List EncRecord)
    (userKeyHex : String) (flateDecode : Bytes → GoResult Bytes)
    (createHeaderErr writeMimetypeErr : Option String) : DecryptResult :=
  if userKeyHex = "" then ⟨"", [], .failure "user key not specified"⟩
  else
    match hexDecodeString userKeyHex with
    | .panic p => ⟨"", [], .panicked p⟩
    | .err e => ⟨"", [], .failure ("error decoding user key: " ++ e)⟩
    | .ok userKey =>
      match getContentKey license userKey with
      | .panic p => ⟨"", [], .panicked p⟩
      | .err e => ⟨"", [], .failure ("error getting content key: " ++ e)⟩
      | .ok contentKey =>
        match listEncryptedFiles records with
        | .panic p => ⟨"", [], .panicked p⟩
        | .err e => ⟨"", [], .failure ("error listing encrypted files: " ++ e)⟩
        | .ok encryptedFiles =>
          if 65535 < (strBytes inZip.comment).length then
            ⟨"", [],
              .failure "error setting output file comment: zip: Writer.Comment too long"⟩
          else
            let lookup := groupFileEntriesByPath encryptedFiles
            match writeMimetypeErr with
            | some e =>
              ⟨inZip.comment, [],
                .failure ("error appending mimetype file to output zip file: " ++ e)⟩
            | none =>
              let mt : OutEntry := ⟨"mimetype", zipStore, mimetypeContent⟩
              let (out, oc) := processEntries contentKey lookup flateDecode inZip.entries
              ⟨inZip.comment, mt :: out, oc⟩

/-- Whether the character list `needle` starts the list `haystack`. -/
def startsWithChars : List Char → List Char → Bool
  | [], _ => true
  | _ :: _, [] => false
  | a :: as, b :: bs => decide (a = b) && startsWithChars as bs

/-- Whether `needle` occurs contiguously in the list. -/
def hasSubChars (needle : List Char) : List Char → Bool
  | [] => startsWithChars needle []
  | c :: rest => startsWithChars needle (c :: rest) || hasSubChars needle rest

/-- Whether an error message names (contains as a contiguous substring)
the given string. -/
def mentions (needle haystack : String) : Bool :=
  hasSubChars needle.toList haystack.toList

/-! ## Concrete inputs shared by the witnesses below -/

/-- A single-block CBC blob (IV followed by the all-zero ciphertext
block) whose plaintext under the all-zero 32-byte key is a full block of
`0x10` bytes, i.e. sixteen bytes of valid PKCS#7 padding: it deciphers
to the empty byte string. -/
def fullPadBlob256 : Bytes :=
  [119, 119, 12, 241, 234, 129, 205, 251, 31, 159, 171, 163, 118, 165, 33, 164] ++
    List.replicate 16 0

/-- The all-zero 32-byte user key. -/
def zeroKey32 : Bytes := List.replicate 32 0

/-- Hex encoding of `zeroKey32`. -/
def zeroKeyHex64 : String := String.mk (List.replicate 64 '0')

/-- License whose key check decrypts (under `zeroKey32`) to the empty
byte string, matching its empty `id`; the content key also decrypts to
the empty byte string. -/
def licenseOK : License := ⟨[], fullPadBlob256, fullPadBlob256⟩

/-- License with `id` `"a"` whose key check decrypts (under `zeroKey32`)
to the empty byte string: a key-check mismatch. -/
def licenseMismatch : License := ⟨[97], fullPadBlob256, fullPadBlob256⟩

/-! ## Claims -/

/-- FIPS-197 appendix C.1 decryption test vector (AES-128). -/
theorem aes128_fips197_vector :
    aesDecryptBlock (List.range 16)
      [0x69, 0xc4, 0xe0, 0xd8, 0x6a, 0x7b, 0x04, 0x30,
       0xd8, 0xcd, 0xb7, 0x80, 0x70, 0xb4, 0xc5, 0x5a] =
      [0x00, 0x11, 0x22, 0x33, 0x44, 0x55, 0x66, 0x77,
       0x88, 0x99, 0xaa, 0xbb, 0xcc, 0xdd, 0xee, 0xff] := by decide

/-- FIPS-197 appendix C.3 decryption test vector (AES-256). -/
theorem aes256_fips197_vector :
    aesDecryptBlock (List.range 32)
      [0x8e, 0xa2, 0xb7, 0xca, 0x51, 0x67, 0x45, 0xbf,
       0xea, 0xfc, 0x49, 0x90, 0x4b, 0x49, 0x60, 0x89] =
      [0x00, 0x11, 0x22, 0x33, 0x44, 0x55, 0x66, 0x77,
       0x88, 0x99, 0xaa, 0xbb, 0xcc, 0xdd, 0xee, 0xff] := by decide


/-- C1.  The claim asserts that `decipherAES256CBC` reports an
invalid-padding error when the trailing padding byte exceeds the
plaintext length (which the code does, third conjunct, for inputs that
reach the check) **and** that it never reads past the buffer or crashes,
in particular not for inputs shorter than or equal to one block.  The
code violates the second part: for an 8-byte input the slice expression
`data[aes.BlockSize:]` is out of range and panics, and for an input of
exactly one block the plaintext is empty and `res[len(res)-1]` panics,
both with a valid 32-byte key.  This theorem evaluates the embedding at
those failing inputs (and at a 32-byte input whose padding byte is 180,
which does return the invalid-padding error the claim describes). -/
theorem c1_decipher_crashes_on_short_inputs :
    decipherAES256CBC (List.replicate 8 0) (List.replicate 32 0) =
      .panic "slice bounds out of range" ∧
    decipherAES256CBC (List.replicate 16 0) (List.replicate 32 0) =
      .panic "index out of range" ∧
    decipherAES256CBC (List.replicate 32 0) (List.replicate 32 0) =
      .err "invalid padding length 180 (data length is 16)" := by
  refine ⟨by decide, by decide, by decide⟩

/-- C2.  The claim (and the source's own `len(data) == 0` guard, which
returns an empty result with no error) says an empty encrypted blob
decrypts to an empty result.  The guard is unreachable: it is written
after the slice expressions `data[:16]`, `data[16:]`, which panic on a
zero-length buffer.  Evaluated with the all-zero 32-byte key, which the
cipher constructor accepts (first conjunct). -/
theorem c2_empty_blob_panics :
    aesNewCipherOk (List.replicate 32 0) = true ∧
    decipherAES256CBC [] (List.replicate 32 0) =
      .panic "slice bounds out of range" := by
  refine ⟨by decide, by decide⟩

/-- C8.  The font-obfuscation strategy is the identity on its data
argument: for every input and key it returns the input unchanged with no
error. -/
theorem c8_font_obfuscation_identity (data key : Bytes) :
    decipherFontObfuscation data key = .ok data := rfl

/-- C9 counterexample.  The claim says the decipher operation returns an
error whenever the decoded user key is not exactly 32 bytes.  A 16-byte
key is accepted by `aes.NewCipher` (AES-128), and with this input the
operation returns an empty plaintext with no error: the IV is chosen so
that the single plaintext block is sixteen `0x10` bytes, i.e. a full
block of valid PKCS#7 padding. -/
theorem c9_sixteen_byte_key_not_rejected :
    (List.replicate (α := Nat) 16 0).length ≠ 32 ∧
    decipherAES256CBC
      ([4, 31, 31, 0, 1, 165, 50, 45, 105, 72, 103, 7, 239, 201, 252, 42] ++
        List.replicate 16 0)
      (List.replicate 16 0) = .ok [] ∧
    (decipherAES256CBC
      ([4, 31, 31, 0, 1, 165, 50, 45, 105, 72, 103, 7, 239, 201, 252, 42] ++
        List.replicate 16 0)
      (List.replicate 16 0)).isErr = false := by
  refine ⟨by decide, by decide, by decide⟩

/-- C9 amended.  `decipherAES256CBC` fails with the key-size error of
`aes.NewCipher` exactly when the supplied key is not 16, 24 or 32 bytes
long; 16- and 24-byte keys are accepted and decryption proceeds (with
AES-128/AES-192). -/
theorem c9_key_size_error (data key : Bytes)
    (h16 : key.length ≠ 16) (h24 : key.length ≠ 24) (h32 : key.length ≠ 32) :
    decipherAES256CBC data key =
      .err ("error creating cipher: crypto/aes: invalid key size " ++
        toString key.length) := by
  have hk : aesNewCipherOk key = false := by
    simp [aesNewCipherOk, h16, h24, h32]
  simp [decipherAES256CBC, hk]

/-- C9 amended, witness: a 20-byte key is rejected with the key-size
error. -/
theorem c9_key_size_error_witness :
    decipherAES256CBC [] (List.replicate 20 0) =
      .err ("error creating cipher: crypto/aes: invalid key size " ++
        toString (List.replicate (α := Nat) 20 0).length) :=
  c9_key_size_error [] (List.replicate 20 0) (by decide) (by decide) (by decide)

/-- Inversion helper: a successful `Decrypt` run passed every earlier
stage, wrote the generated mimetype entry first, and its loop succeeded. -/
theorem Decrypt_success_inversion (inZip : InputZip) (license : License)
    (records : List EncRecord) (userKeyHex : String)
    (flateDecode : Bytes → GoResult Bytes) (che wme : Option String)
    (h : (Decrypt inZip license records userKeyHex flateDecode che wme).outcome =
      .success) :
    ∃ userKey contentKey fes out,
      hexDecodeString userKeyHex = .ok userKey ∧
      getContentKey license userKey = .ok contentKey ∧
      listEncryptedFiles records = .ok fes ∧
      wme = none ∧
      processEntries contentKey (groupFileEntriesByPath fes) flateDecode
        inZip.entries = (out, .success) ∧
      Decrypt inZip license records userKeyHex flateDecode che wme =
        ⟨inZip.comment, ⟨"mimetype", zipStore, mimetypeContent⟩ :: out, .success⟩ := by
  unfold Decrypt at h
  by_cases hkh : userKeyHex = ""
  · rw [if_pos hkh] at h
    exact absurd h (by simp)
  rw [if_neg hkh] at h
  rcases hhex : hexDecodeString userKeyHex with userKey | e | p
  rotate_left
  · simp [hhex] at h
  · simp [hhex] at h
  simp only [hhex] at h
  rcases hgck : getContentKey license userKey with contentKey | e | p
  rotate_left
  · simp [hgck] at h
  · simp [hgck] at h
  simp only [hgck] at h
  rcases hlist : listEncryptedFiles records with fes | e | p
  rotate_left
  · simp [hlist] at h
  · simp [hlist] at h
  simp only [hlist] at h
  by_cases hcomment : 65535 < (strBytes inZip.comment).length
  · rw [if_pos hcomment] at h
    exact absurd h (by simp)
  rw [if_neg hcomment] at h
  cases wme with
  | some e => simp at h
  | none =>
    rcases hrec : processEntries contentKey (groupFileEntriesByPath fes)
        flateDecode inZip.entries with ⟨out, oc⟩
    simp only [hrec] at h
    cases oc with
    | failure m => simp at h
    | panicked p => simp at h
    | success =>
      refine ⟨userKey, contentKey, fes, out, rfl, hgck, rfl, rfl, hrec, ?_⟩
      simp only [Decrypt, if_neg hkh, hhex, hgck, hlist, if_neg hcomment, hrec]

/-- Loop invariant of `processEntries` on a successful pass: the output
names are the source names minus the three skipped ones, in source
order; directory entries carry no data; and file entries outside the
manifest lookup are copied verbatim. -/
theorem processEntries_success (contentKey : Bytes)
    (lookup : String → Option FileEntry) (flateDecode : Bytes → GoResult Bytes) :
    ∀ (es : List ZipEntry) (out : List OutEntry),
      processEntries contentKey lookup flateDecode es = (out, .success) →
      out.map OutEntry.name =
        (es.map ZipEntry.name).filter (fun n => decide (n ∉ skippedNames)) ∧
      (∀ e ∈ out, isDirName e.name = true → e.data = []) ∧
      (∀ f ∈ es, f.name ∉ skippedNames → isDirName f.name = false →
        lookup f.name = none → OutEntry.mk f.name zipDeflate f.data ∈ out) := by
  intro es
  induction es with
  | nil =>
    intro out h
    simp only [processEntries, Prod.mk.injEq] at h
    obtain ⟨h1, -⟩ := h
    subst h1
    simp
  | cons f rest ih =>
    intro out h
    rw [processEntries] at h
    by_cases hskip : f.name ∈ skippedNames
    · rw [if_pos hskip] at h
      obtain ⟨ha, hb, hc⟩ := ih out h
      refine ⟨?_, hb, ?_⟩
      · simpa [List.filter_cons, hskip] using ha
      · intro g hg hgskip hgdir hglook
        rcases List.mem_cons.mp hg with hg | hg
        · subst hg
          exact absurd hskip hgskip
        · exact hc g hg hgskip hgdir hglook
    · rw [if_neg hskip] at h
      by_cases hdir : isDirName f.name = true
      · rw [if_pos hdir] at h
        rcases hr : processEntries contentKey lookup flateDecode rest with ⟨o, oc⟩
        simp only [hr, Prod.mk.injEq] at h
        obtain ⟨h1, h2⟩ := h
        subst h1
        subst h2
        obtain ⟨ha, hb, hc⟩ := ih o hr
        refine ⟨?_, ?_, ?_⟩
        · simpa [List.filter_cons, hskip] using congrArg (List.cons f.name) ha
        · intro e he
          rcases List.mem_cons.mp he with he | he
          · subst he
            intro _
            rfl
          · exact hb e he
        · intro g hg hgskip hgdir hglook
          rcases List.mem_cons.mp hg with hg | hg
          · subst hg
            simp [hgdir] at hdir
          · exact List.mem_cons_of_mem _ (hc g hg hgskip hgdir hglook)
      · rw [if_neg hdir] at h
        rcases hl : lookup f.name with _ | fe
        · simp only [hl] at h
          rcases hr : processEntries contentKey lookup flateDecode rest with ⟨o, oc⟩
          simp only [hr, Prod.mk.injEq] at h
          obtain ⟨h1, h2⟩ := h
          subst h1
          subst h2
          obtain ⟨ha, hb, hc⟩ := ih o hr
          refine ⟨?_, ?_, ?_⟩
          · simpa [List.filter_cons, hskip] using congrArg (List.cons f.name) ha
          · intro e he
            rcases List.mem_cons.mp he with he | he
            · subst he
              intro hed
              exact absurd hed hdir
            · exact hb e he
          · intro g hg hgskip hgdir hglook
            rcases List.mem_cons.mp hg with hg | hg
            · subst hg
              exact List.mem_cons_self _ _
            · exact List.mem_cons_of_mem _ (hc g hg hgskip hgdir hglook)
        · simp only [hl] at h
          rcases hd : decryptFile contentKey fe.encryptionAlgorithm fe.isCompressed
              flateDecode f.data with data | e | p
          rotate_left
          · simp only [hd] at h
            simp at h
          · simp only [hd] at h
            simp at h
          simp only [hd] at h
          rcases hr : processEntries contentKey lookup flateDecode rest with ⟨o, oc⟩
          simp only [hr, Prod.mk.injEq] at h
          obtain ⟨h1, h2⟩ := h
          subst h1
          subst h2
          obtain ⟨ha, hb, hc⟩ := ih o hr
          refine ⟨?_, ?_, ?_⟩
          · simpa [List.filter_cons, hskip] using congrArg (List.cons f.name) ha
          · intro e he
            rcases List.mem_cons.mp he with he | he
            · subst he
              intro hed
              exact absurd hed hdir
            · exact hb e he
          · intro g hg hgskip hgdir hglook
            rcases List.mem_cons.mp hg with hg | hg
            · subst hg
              simp [hglook] at hl
            · exact List.mem_cons_of_mem _ (hc g hg hgskip hgdir hglook)

/-- Helper: `listEncryptedFiles` fails with the unsupported-algorithm
error at the first record whose algorithm is unknown, provided every
earlier record is well-formed. -/
theorem listEncryptedFiles_unsupported (d : EncRecord) (p : String)
    (huri : pathUnescape d.uri = .ok p)
    (ha1 : d.algorithm ≠ EncryptionAlgorithmAES256CBC)
    (ha2 : d.algorithm ≠ EncryptionAlgorithmFontObfuscation) :
    ∀ (pre rest : List EncRecord),
      (∀ r ∈ pre, (∃ q, pathUnescape r.uri = .ok q) ∧
        (r.algorithm = EncryptionAlgorithmAES256CBC ∨
          r.algorithm = EncryptionAlgorithmFontObfuscation)) →
      listEncryptedFiles (pre ++ d :: rest) =
        .err ("unsupported encryption algorithm for file " ++ p ++ ": " ++
          d.algorithm) := by
  intro pre
  induction pre with
  | nil =>
    intro rest hpre
    have hor : ¬ (d.algorithm = EncryptionAlgorithmAES256CBC ∨
        d.algorithm = EncryptionAlgorithmFontObfuscation) :=
      fun h => h.elim ha1 ha2
    simp only [List.nil_append, listEncryptedFiles, huri, if_neg hor]
  | cons r pre ih =>
    intro rest hpre
    obtain ⟨⟨q, hq⟩, hsup⟩ := hpre r (List.mem_cons_self r pre)
    have hrec := ih rest fun r2 hr2 => hpre r2 (List.mem_cons_of_mem r hr2)
    simp only [List.cons_append, listEncryptedFiles, hq, if_pos hsup,
      List.append_eq, hrec, GoResult.map]

/-- C3.  Whenever the key check deciphers to bytes different from the
license `id`, `getContentKey` returns the mismatch error and produces no
content key, and `Decrypt` (which calls it before opening the output
archive) fails with that error wrapped, having written no entry at all. -/
theorem c3_key_check_mismatch (license : License) (userKey kc : Bytes)
    (hdec : decipherAES256CBC license.encryptedKeyCheck userKey = .ok kc)
    (hne : kc ≠ license.id) :
    getContentKey license userKey =
      .err ("decrypted key check (" ++ bytesToString kc ++
        ") does not match license ID (" ++ bytesToString license.id ++ ")") ∧
    ∀ (inZip : InputZip) (records : List EncRecord) (userKeyHex : String)
      (flateDecode : Bytes → GoResult Bytes) (che wme : Option String),
      userKeyHex ≠ "" →
      hexDecodeString userKeyHex = .ok userKey →
      Decrypt inZip license records userKeyHex flateDecode che wme =
        ⟨"", [], .failure ("error getting content key: " ++
          ("decrypted key check (" ++ bytesToString kc ++
            ") does not match license ID (" ++ bytesToString license.id ++ ")"))⟩ := by
  have h1 : getContentKey license userKey =
      .err ("decrypted key check (" ++ bytesToString kc ++
        ") does not match license ID (" ++ bytesToString license.id ++ ")") := by
    simp only [getContentKey, hdec, if_pos hne]
  refine ⟨h1, ?_⟩
  intro inZip records userKeyHex flateDecode che wme hkh hhex
  simp only [Decrypt, if_neg hkh, hhex, h1]

/-- C3 witness: with the all-zero 32-byte key, `licenseMismatch`'s key
check deciphers to the empty byte string, which differs from its `id`
(`"a"`); `getContentKey` reports the mismatch and `Decrypt` fails having
written nothing. -/
theorem c3_key_check_mismatch_witness :
    getContentKey licenseMismatch zeroKey32 =
      .err ("decrypted key check (" ++ bytesToString [] ++
        ") does not match license ID (" ++ bytesToString licenseMismatch.id ++ ")") ∧
    Decrypt ⟨[⟨"OEBPS/a.txt", [1, 2, 3]⟩], ""⟩ licenseMismatch [] zeroKeyHex64
        (fun b => .ok b) none none =
      ⟨"", [], .failure ("error getting content key: " ++
        ("decrypted key check (" ++ bytesToString [] ++
          ") does not match license ID (" ++ bytesToString licenseMismatch.id ++ ")"))⟩ :=
  have h := c3_key_check_mismatch licenseMismatch zeroKey32 [] (by decide) (by decide)
  ⟨h.1, h.2 ⟨[⟨"OEBPS/a.txt", [1, 2, 3]⟩], ""⟩ [] zeroKeyHex64 (fun b => .ok b)
    none none (by decide) (by decide)⟩

/-- C4 counterexample.  The claim says any manifest containing a record
with an unsupported algorithm fails *with an error naming both the
entry's path and the raw identifier*.  When the same record's URI fails
to percent-decode, `url.PathUnescape` is consulted first and its error
preempts the algorithm check: parsing still fails, but the error names
neither the decoded path nor the identifier `"bogus-alg"`. -/
theorem c4_uri_error_preempts_algorithm_error :
    (EncRecord.mk "bogus-alg" "%zz" []).algorithm ≠ EncryptionAlgorithmAES256CBC ∧
    (EncRecord.mk "bogus-alg" "%zz" []).algorithm ≠ EncryptionAlgorithmFontObfuscation ∧
    listEncryptedFiles [EncRecord.mk "bogus-alg" "%zz" []] =
      .err "error decoding entry path \"%zz\": invalid URL escape \"%zz\"" ∧
    mentions "bogus-alg"
      "error decoding entry path \"%zz\": invalid URL escape \"%zz\"" = false := by
  refine ⟨by decide, by decide, by decide, by decide⟩

/-- C4 amended.  For a manifest whose records all percent-decode and
whose first ill-formed record `d` has an unsupported algorithm,
`listEncryptedFiles` fails with the error naming `d`'s decoded path and
raw identifier; inside `Decrypt` this happens after key derivation but
before the output archive is opened, so the whole job aborts with no
entry written — even when every other record is well-formed
(`pre`/`rest` arbitrary). -/
theorem c4_unsupported_algorithm_aborts
    (pre rest : List EncRecord) (d : EncRecord) (p : String)
    (hpre : ∀ r ∈ pre, (∃ q, pathUnescape r.uri = .ok q) ∧
      (r.algorithm = EncryptionAlgorithmAES256CBC ∨
        r.algorithm = EncryptionAlgorithmFontObfuscation))
    (huri : pathUnescape d.uri = .ok p)
    (ha1 : d.algorithm ≠ EncryptionAlgorithmAES256CBC)
    (ha2 : d.algorithm ≠ EncryptionAlgorithmFontObfuscation) :
    listEncryptedFiles (pre ++ d :: rest) =
      .err ("unsupported encryption algorithm for file " ++ p ++ ": " ++
        d.algorithm) ∧
    ∀ (inZip : InputZip) (license : License) (userKeyHex : String)
      (flateDecode : Bytes → GoResult Bytes) (che wme : Option String)
      (userKey contentKey : Bytes),
      userKeyHex ≠ "" →
      hexDecodeString userKeyHex = .ok userKey →
      getContentKey license userKey = .ok contentKey →
      Decrypt inZip license (pre ++ d :: rest) userKeyHex flateDecode che wme =
        ⟨"", [], .failure ("error listing encrypted files: " ++
          ("unsupported encryption algorithm for file " ++ p ++ ": " ++
            d.algorithm))⟩ := by
  have h1 := listEncryptedFiles_unsupported d p huri ha1 ha2 pre rest hpre
  refine ⟨h1, ?_⟩
  intro inZip license userKeyHex flateDecode che wme userKey contentKey hkh hhex hgck
  simp only [Decrypt, if_neg hkh, hhex, hgck, h1]

/-- C4 amended, witness: one supported font-obfuscation record followed
by a record with algorithm `"bogus-alg"`; the listing fails naming the
path and identifier, and `Decrypt` under `licenseOK` aborts with nothing
written. -/
theorem c4_unsupported_algorithm_aborts_witness :
    listEncryptedFiles
      [EncRecord.mk EncryptionAlgorithmFontObfuscation "OEBPS/f.otf" [],
        EncRecord.mk "bogus-alg" "OEBPS/ch%31.xhtml" []] =
      .err ("unsupported encryption algorithm for file " ++ "OEBPS/ch1.xhtml" ++
        ": " ++ "bogus-alg") ∧
    Decrypt ⟨[⟨"OEBPS/a.txt", [1]⟩], ""⟩ licenseOK
        [EncRecord.mk EncryptionAlgorithmFontObfuscation "OEBPS/f.otf" [],
          EncRecord.mk "bogus-alg" "OEBPS/ch%31.xhtml" []]
        zeroKeyHex64 (fun b => .ok b) none none =
      ⟨"", [], .failure ("error listing encrypted files: " ++
        ("unsupported encryption algorithm for file " ++ "OEBPS/ch1.xhtml" ++
          ": " ++ "bogus-alg"))⟩ :=
  have h := c4_unsupported_algorithm_aborts
    [EncRecord.mk EncryptionAlgorithmFontObfuscation "OEBPS/f.otf" []] []
    (EncRecord.mk "bogus-alg" "OEBPS/ch%31.xhtml" []) "OEBPS/ch1.xhtml"
    (by intro r hr
        refine ⟨⟨"OEBPS/f.otf", ?_⟩, ?_⟩ <;> rcases List.mem_singleton.mp hr with rfl
        · decide
        · exact Or.inr rfl)
    (by decide) (by decide) (by decide)
  ⟨h.1, h.2 ⟨[⟨"OEBPS/a.txt", [1]⟩], ""⟩ licenseOK zeroKeyHex64 (fun b => .ok b)
    none none zeroKey32 [] (by decide) (by decide) (by decide)⟩

/-- C5 counterexample.  The claim says the generated first entry's
content is "the 21-byte ASCII string `application/epub+zip`"; the string
written by the code is `application/epub+zip`, which is 20 bytes long,
as this successful concrete run shows. -/
theorem c5_mimetype_is_twenty_bytes :
    (Decrypt ⟨[], ""⟩ licenseOK [] zeroKeyHex64 (fun b => .ok b) none
        none).outcome = .success ∧
    (Decrypt ⟨[], ""⟩ licenseOK [] zeroKeyHex64 (fun b => .ok b) none
        none).written.head? =
      some ⟨"mimetype", zipStore, strBytes "application/epub+zip"⟩ ∧
    (strBytes "application/epub+zip").length = 20 ∧
    ¬ (strBytes "application/epub+zip").length = 21 := by
  refine ⟨by decide, by decide, by decide, by decide⟩

/-- C5 amended.  On every successful run the first destination entry is
named `mimetype`, uses the uncompressed storage method (`zip.Store`),
and its content is exactly the 20-byte ASCII string
`application/epub+zip`. -/
theorem c5_mimetype_first_uncompressed (inZip : InputZip) (license : License)
    (records : List EncRecord) (userKeyHex : String)
    (flateDecode : Bytes → GoResult Bytes) (che wme : Option String)
    (h : (Decrypt inZip license records userKeyHex flateDecode che wme).outcome =
      .success) :
    (Decrypt inZip license records userKeyHex flateDecode che wme).written.head? =
      some ⟨"mimetype", zipStore, strBytes "application/epub+zip"⟩ ∧
    zipStore = 0 ∧
    (strBytes "application/epub+zip").length = 20 := by
  obtain ⟨userKey, contentKey, fes, out, -, -, -, -, -, heq⟩ :=
    Decrypt_success_inversion inZip license records userKeyHex flateDecode che wme h
  rw [heq]
  exact ⟨rfl, rfl, by decide⟩

/-- C5 amended, witness: a concrete successful run through the previous
theorem. -/
theorem c5_mimetype_first_uncompressed_witness :
    (Decrypt ⟨[⟨"OEBPS/b.txt", [7]⟩], "c"⟩ licenseOK [] zeroKeyHex64
        (fun b => .ok b) none none).written.head? =
      some ⟨"mimetype", zipStore, strBytes "application/epub+zip"⟩ ∧
    zipStore = 0 ∧
    (strBytes "application/epub+zip").length = 20 :=
  c5_mimetype_first_uncompressed ⟨[⟨"OEBPS/b.txt", [7]⟩], "c"⟩ licenseOK []
    zeroKeyHex64 (fun b => .ok b) none none (by decide)

/-- C6.  On every successful run: the archive comment is copied
verbatim; the destination names are `mimetype` followed by the source
entry names in source order with exactly the three consumed names
(`META-INF/encryption.xml`, `META-INF/license.lcpl`, `mimetype`)
removed; and every destination entry whose name ends in `/` (directory
marker) carries no data — such entries are produced without consulting
any cipher strategy. -/
theorem c6_entry_layout (inZip : InputZip) (license : License)
    (records : List EncRecord) (userKeyHex : String)
    (flateDecode : Bytes → GoResult Bytes) (che wme : Option String)
    (h : (Decrypt inZip license records userKeyHex flateDecode che wme).outcome =
      .success) :
    (Decrypt inZip license records userKeyHex flateDecode che wme).comment =
      inZip.comment ∧
    (Decrypt inZip license records userKeyHex flateDecode che wme).written.map
        OutEntry.name =
      "mimetype" ::
        (inZip.entries.map ZipEntry.name).filter (fun n => decide (n ∉ skippedNames)) ∧
    ∀ e ∈ (Decrypt inZip license records userKeyHex flateDecode che wme).written,
      isDirName e.name = true → e.data = [] := by
  obtain ⟨userKey, contentKey, fes, out, -, -, -, -, hproc, heq⟩ :=
    Decrypt_success_inversion inZip license records userKeyHex flateDecode che wme h
  obtain ⟨ha, hb, -⟩ := processEntries_success contentKey
    (groupFileEntriesByPath fes) flateDecode inZip.entries out hproc
  rw [heq]
  refine ⟨rfl, ?_, ?_⟩
  · simpa using ha
  · intro e he
    rcases List.mem_cons.mp he with he | he
    · subst he
      intro hd
      exact absurd hd (by decide)
    · exact hb e he

/-- C6 witness: a concrete successful run with a skipped entry, a
directory entry and a plain file. -/
theorem c6_entry_layout_witness :
    (Decrypt ⟨[⟨"mimetype", [9]⟩, ⟨"OEBPS/", []⟩, ⟨"OEBPS/a.txt", [1, 2]⟩], "hi"⟩
        licenseOK [] zeroKeyHex64 (fun b => .ok b) none none).comment = "hi" ∧
    (Decrypt ⟨[⟨"mimetype", [9]⟩, ⟨"OEBPS/", []⟩, ⟨"OEBPS/a.txt", [1, 2]⟩], "hi"⟩
        licenseOK [] zeroKeyHex64 (fun b => .ok b) none none).written.map
        OutEntry.name =
      "mimetype" ::
        (([⟨"mimetype", [9]⟩, ⟨"OEBPS/", []⟩,
            ⟨"OEBPS/a.txt", [1, 2]⟩] : List ZipEntry).map ZipEntry.name).filter
          (fun n => decide (n ∉ skippedNames)) ∧
    ∀ e ∈ (Decrypt ⟨[⟨"mimetype", [9]⟩, ⟨"OEBPS/", []⟩, ⟨"OEBPS/a.txt", [1, 2]⟩],
        "hi"⟩ licenseOK [] zeroKeyHex64 (fun b => .ok b) none none).written,
      isDirName e.name = true → e.data = [] := by
  have h := c6_entry_layout
    ⟨[⟨"mimetype", [9]⟩, ⟨"OEBPS/", []⟩, ⟨"OEBPS/a.txt", [1, 2]⟩], "hi"⟩
    licenseOK [] zeroKeyHex64 (fun b => .ok b) none none (by decide)
  exact ⟨h.1, h.2.1, fun e he => h.2.2 e he⟩

/-- C7.  On every successful run, a source file entry whose name is not
in the manifest lookup (and is not skipped, and is not a directory
marker) is copied to the destination byte-identically, under the same
name. -/
theorem c7_unlisted_entry_copied (inZip : InputZip) (license : License)
    (records : List EncRecord) (userKeyHex : String)
    (flateDecode : Bytes → GoResult Bytes) (che wme : Option String)
    (fes : List FileEntry) (f : ZipEntry)
    (h : (Decrypt inZip license records userKeyHex flateDecode che wme).outcome =
      .success)
    (hlist : listEncryptedFiles records = .ok fes)
    (hf : f ∈ inZip.entries)
    (hskip : f.name ∉ skippedNames)
    (hdir : isDirName f.name = false)
    (hlook : groupFileEntriesByPath fes f.name = none) :
    OutEntry.mk f.name zipDeflate f.data ∈
      (Decrypt inZip license records userKeyHex flateDecode che wme).written := by
  obtain ⟨userKey, contentKey, fes2, out, -, -, hlist2, -, hproc, heq⟩ :=
    Decrypt_success_inversion inZip license records userKeyHex flateDecode che wme h
  rw [hlist] at hlist2
  injection hlist2 with hfes
  subst hfes
  obtain ⟨-, -, hc⟩ := processEntries_success contentKey
    (groupFileEntriesByPath fes) flateDecode inZip.entries out hproc
  rw [heq]
  exact List.mem_cons_of_mem _ (hc f hf hskip hdir hlook)

/-- C7 witness: with a manifest listing only `OEBPS/f.otf`, the source
entry `OEBPS/a.txt` is copied byte-identically. -/
theorem c7_unlisted_entry_copied_witness :
    OutEntry.mk "OEBPS/a.txt" zipDeflate [1, 2, 3] ∈
      (Decrypt ⟨[⟨"OEBPS/a.txt", [1, 2, 3]⟩], ""⟩ licenseOK
        [EncRecord.mk EncryptionAlgorithmFontObfuscation "OEBPS/f.otf" []]
        zeroKeyHex64 (fun b => .ok b) none none).written :=
  c7_unlisted_entry_copied ⟨[⟨"OEBPS/a.txt", [1, 2, 3]⟩], ""⟩ licenseOK
    [EncRecord.mk EncryptionAlgorithmFontObfuscation "OEBPS/f.otf" []]
    zeroKeyHex64 (fun b => .ok b) none none
    [FileEntry.mk "OEBPS/f.otf" false EncryptionAlgorithmFontObfuscation]
    ⟨"OEBPS/a.txt", [1, 2, 3]⟩
    (by decide) (by decide) (by decide) (by decide) (by decide) (by decide)

/-- C10.  The `error` returned by `outZip.CreateHeader` for the mimetype
entry is bound and never tested (the next line's `if` declares a fresh
`err`), so the result of `Decrypt` does not depend on it in any way
(first conjunct, for every pair of oracle values); at that stage a
failure is surfaced exactly when the subsequent `io.WriteString` of the
mimetype content fails, with the write's error (second conjunct). -/
theorem c10_create_header_error_discarded (inZip : InputZip) (license : License)
    (records : List EncRecord) (userKeyHex : String)
    (flateDecode : Bytes → GoResult Bytes) (e1 e2 w : Option String) :
    Decrypt inZip license records userKeyHex flateDecode e1 w =
      Decrypt inZip license records userKeyHex flateDecode e2 w ∧
    ∀ (m : String) (userKey contentKey : Bytes) (fes : List FileEntry),
      userKeyHex ≠ "" →
      hexDecodeString userKeyHex = .ok userKey →
      getContentKey license userKey = .ok contentKey →
      listEncryptedFiles records = .ok fes →
      (strBytes inZip.comment).length ≤ 65535 →
      (Decrypt inZip license records userKeyHex flateDecode e1 (some m)).outcome =
        .failure ("error appending mimetype file to output zip file: " ++ m) := by
  refine ⟨rfl, ?_⟩
  intro m userKey contentKey fes hkh hhex hgck hlist hcom
  simp only [Decrypt, if_neg hkh, hhex, hgck, hlist, if_neg (Nat.not_lt.mpr hcom)]

/-- C10 witness: a concrete run where the header-creation oracle error
(`"boom"`) has no effect, and a mimetype write failure (`"disk full"`)
is the reported error. -/
theorem c10_create_header_error_discarded_witness :
    Decrypt ⟨[], "k"⟩ licenseOK [] zeroKeyHex64 (fun b => .ok b) (some "boom")
        none =
      Decrypt ⟨[], "k"⟩ licenseOK [] zeroKeyHex64 (fun b => .ok b) none none ∧
    (Decrypt ⟨[], "k"⟩ licenseOK [] zeroKeyHex64 (fun b => .ok b) (some "boom")
        (some "disk full")).outcome =
      .failure ("error appending mimetype file to output zip file: " ++ "disk full") :=
  have h := c10_create_header_error_discarded ⟨[], "k"⟩ licenseOK [] zeroKeyHex64
    (fun b => .ok b) (some "boom") none none
  ⟨h.1, h.2 "disk full" zeroKey32 [] [] (by decide) (by decide) (by decide)
    (by decide) (by decide)⟩

end Lcp
